import Mathlib

/-!
Verification development for the KataGo neural-net backend interface
(`src/cpp/neuralnet/nninterface.h`). The repository ships only the interface
header; each operation below is modelled from the specification of that
interface and its documented contracts, and the stated properties are proved
against those models.
-/

namespace NeuralNet

/-- Modelled from the spec: the rule descriptor (`Rules`, declared in the
missing `game/rules.h`) is "an opaque value representing game rule parameters
(at minimum a ruleset identifier and a numeric compensation value)". The
compensation value (komi) is stored in half-point units as an integer. -/
structure Rules where
  rulesetId : Nat
  komi : Int
deriving DecidableEq, Repr

/-- Modelled from the spec: a "nearness" measure between two rule descriptors,
used to pick the nearest supported rule set. It is zero exactly when the two
descriptors coincide. -/
def rulesDist (a b : Rules) : Nat :=
  (if a.rulesetId = b.rulesetId then 0 else 1) + (a.komi - b.komi).natAbs

/-- Modelled from the spec: a neural-net layer of the trunk. The concrete
tensor kernels are external collaborators; they are represented here by
simple elementwise operations so the batching protocol can be stated. -/
inductive Layer where
  | scale (c : Int)
  | shift (c : Int)
  | relu
deriving DecidableEq, Repr

/-- A tensor is a flat buffer of numeric values (floats in the source,
modelled as exact integers — exact arithmetic stands in for the numeric
domain, whose rounding behaviour is out of scope). -/
abbrev Tensor := List Int

/-- Apply one layer elementwise to a tensor. -/
def applyLayer : Layer → Tensor → Tensor
  | .scale c, t => t.map (fun v => c * v)
  | .shift c, t => t.map (fun v => v + c)
  | .relu, t => t.map (fun v => max v 0)

/-- Modelled from the spec: the `LoadedModel` descriptor (its concrete parsed
representation lives in the missing `neuralnet/desc.h` / model loader). The
spec says it carries "name, version, native rule set, expected feature-tensor
shape"; the native rule sets are a nonempty collection (default plus others),
and the trunk/head weights stand in for the parsed network. -/
structure LoadedModel where
  name : String
  version : Nat
  numSpatialChannels : Nat
  numGlobalFeatures : Nat
  defaultRules : Rules
  otherRules : List Rules
  trunk : List Layer
  valueHeadShift : Int
deriving DecidableEq, Repr

/-- Pure accessor for the model name. -/
def getModelName (loadedModel : LoadedModel) : String := loadedModel.name

/-- Pure accessor for the model version. -/
def getModelVersion (loadedModel : LoadedModel) : Nat := loadedModel.version

/-- The nonempty list of rule sets the model natively supports. -/
def supportedRulesList (loadedModel : LoadedModel) : List Rules :=
  loadedModel.defaultRules :: loadedModel.otherRules

/-- Modelled from the spec: pick the first rule set in the candidate list at
minimal `rulesDist` from the desired one, starting from current best `best`. -/
def nearestRules (desired best : Rules) : List Rules → Rules
  | [] => best
  | r :: rs =>
      if rulesDist desired r < rulesDist desired best then nearestRules desired r rs
      else nearestRules desired best rs

/-- Modelled from the spec: `getSupportedRules` (implementation not under
`src/`, only declared in `nninterface.h`) returns the "nearest" supported
ruleset to `desiredRules`, and reports `true` exactly when `desiredRules`
itself was supported so no modification was needed. The C++ out-parameter
`supported` is modelled as the second component of the returned pair. -/
def getSupportedRules (loadedModel : LoadedModel) (desiredRules : Rules) : Rules × Bool :=
  let resolved := nearestRules desiredRules loadedModel.defaultRules loadedModel.otherRules
  (resolved, decide (resolved = desiredRules))

/-- Tri-state mode flag, modelling the C++ `enabled_t` from the missing
`core/commontypes.h`: force-off / force-on / auto-detect-best. -/
inductive enabled_t where
  | forceFalse
  | forceTrue
  | auto
deriving DecidableEq, Repr

/-- Resolve a tri-state flag to a concrete boolean, `dflt` standing for the
hardware-probed best choice used for `auto`. -/
def resolveEnabled : enabled_t → Bool → Bool
  | .forceTrue, _ => true
  | .forceFalse, _ => false
  | .auto, dflt => dflt

/-- Decode a flat buffer index into `(n, c, y, x)` coordinates, according to
the layout mode: NHWC (channel-last) when `useNHWC`, else NCHW. -/
def decodeIdx (useNHWC : Bool) (C H W : Nat) (i : Nat) : Nat × Nat × Nat × Nat :=
  if useNHWC then (i / (H * W * C), i % C, i / (W * C) % H, i / C % W)
  else (i / (C * H * W), i / (H * W) % C, i / W % H, i % W)

/-- Encode `(n, c, y, x)` coordinates into a flat buffer index, according to
the layout mode: NHWC (channel-last) when `useNHWC`, else NCHW. -/
def encodeIdx (useNHWC : Bool) (C H W : Nat) (n c y x : Nat) : Nat :=
  if useNHWC then ((n * H + y) * W + x) * C + c
  else ((n * C + c) * H + y) * W + x

/-- Modelled from the spec: the symmetry transform selected by the three
boolean flags (flip along Y, flip along X, transpose the two spatial axes),
applied to a flat batched tensor in the given layout. Backend kernels are
external; this is the documented rotation/reflection reindexing. -/
def applySymmetry (batchSize numChannels nnXLen nnYLen : Nat) (useNHWC : Bool)
    (symmetries : Bool × Bool × Bool) (input : List Int) : List Int :=
  let H := nnYLen
  let W := nnXLen
  let flipY := symmetries.1
  let flipX := symmetries.2.1
  let transp := symmetries.2.2
  let outH := if transp then W else H
  let outW := if transp then H else W
  (List.range (batchSize * numChannels * outH * outW)).map (fun i =>
    let d := decodeIdx useNHWC numChannels outH outW i
    let sy0 := if transp then d.2.2.2 else d.2.2.1
    let sx0 := if transp then d.2.2.1 else d.2.2.2
    let sy := if flipY then H - 1 - sy0 else sy0
    let sx := if flipX then W - 1 - sx0 else sx0
    input.getD (encodeIdx useNHWC numChannels H W d.1 d.2.1 sy sx) 0)

/-- Modelled from the spec: the opaque `ComputeContext` — cross-thread,
cross-device initialization state (device list, spatial extent, tuner
configuration, precision/layout preferences, bound model). -/
structure ComputeContext where
  gpuIdxs : List Int
  nnXLen : Nat
  nnYLen : Nat
  openCLTunerFile : String
  openCLReTunePerBoardSize : Bool
  useFP16Mode : enabled_t
  useNHWCMode : enabled_t
  model : LoadedModel
deriving Repr

/-- Modelled from the spec: `createComputeContext` (implementation not under
`src/`). The optional logger collaborator is omitted: it is "never required
for correctness". -/
def createComputeContext (gpuIdxs : List Int) (nnXLen nnYLen : Nat)
    (openCLTunerFile : String) (openCLReTunePerBoardSize : Bool)
    (useFP16Mode useNHWCMode : enabled_t) (loadedModel : LoadedModel) : ComputeContext :=
  { gpuIdxs, nnXLen, nnYLen, openCLTunerFile, openCLReTunePerBoardSize,
    useFP16Mode, useNHWCMode, model := loadedModel }

/-- Modelled from the spec: the opaque `ComputeHandle` — a per-thread,
per-device execution binding with max batch size, exact-size flag, layout
and precision choices, plus internal mutable scratch state (device workspace
bookkeeping) that evaluation may update. -/
structure ComputeHandle where
  nnXLen : Nat
  nnYLen : Nat
  maxBatchSize : Nat
  requireExactNNLen : Bool
  inputsUseNHWC : Bool
  useFP16 : Bool
  gpuIdx : Int
  model : LoadedModel
  scratch : Nat
deriving Repr

/-- Modelled from the spec: `createComputeHandle` (implementation not under
`src/`). `auto` precision resolves to a concrete probed choice (modelled as
`false`); a device index of −1 selects a default device. -/
def createComputeHandle (context : ComputeContext) (loadedModel : LoadedModel)
    (maxBatchSize : Nat) (requireExactNNLen inputsUseNHWC : Bool)
    (gpuIdxForThisThread : Int) : ComputeHandle :=
  { nnXLen := context.nnXLen, nnYLen := context.nnYLen, maxBatchSize,
    requireExactNNLen, inputsUseNHWC,
    useFP16 := resolveEnabled context.useFP16Mode false,
    gpuIdx := if gpuIdxForThisThread = -1 then 0 else gpuIdxForThisThread,
    model := loadedModel, scratch := 0 }

/-- Modelled from the spec: the opaque `InputBuffers` — host staging storage
for one batch: per-slot spatial tensors, per-slot global tensors, a shared
3-flag symmetry selector, and the two queryable slot lengths fixed at
creation. -/
structure InputBuffers where
  maxBatchSize : Nat
  nnXLen : Nat
  nnYLen : Nat
  singleSpatialEltLen : Nat
  singleGlobalEltLen : Nat
  spatialData : List Tensor
  globalData : List Tensor
  symmetries : Bool × Bool × Bool
deriving Repr

/-- Modelled from the spec: `createInputBuffers` (implementation not under
`src/`). Note the signature takes no layout-mode parameter, exactly as in
`nninterface.h`. Slots are allocated zero-filled with spatial slot length
`C · H · W` for the model's declared channel count and global slot length
equal to the model's declared global feature count. -/
def createInputBuffers (loadedModel : LoadedModel) (maxBatchSize nnXLen nnYLen : Nat) :
    InputBuffers :=
  let spatialLen := loadedModel.numSpatialChannels * nnYLen * nnXLen
  { maxBatchSize, nnXLen, nnYLen,
    singleSpatialEltLen := spatialLen,
    singleGlobalEltLen := loadedModel.numGlobalFeatures,
    spatialData := List.replicate maxBatchSize (List.replicate spatialLen 0),
    globalData := List.replicate maxBatchSize (List.replicate loadedModel.numGlobalFeatures 0),
    symmetries := (false, false, false) }

/-- The per-slot spatial tensor view (`float*` in the source, modelled as the
slot's tensor value). -/
def getBatchEltSpatialInplace (buffers : InputBuffers) (nIdx : Nat) : Tensor :=
  buffers.spatialData.getD nIdx []

/-- The per-slot global tensor view. -/
def getBatchEltGlobalInplace (buffers : InputBuffers) (nIdx : Nat) : Tensor :=
  buffers.globalData.getD nIdx []

/-- The shared 3-flag symmetry selector view. -/
def getSymmetriesInplace (buffers : InputBuffers) : Bool × Bool × Bool :=
  buffers.symmetries

/-- The queryable per-slot spatial tensor length (`C · H · W`). -/
def getBatchEltSpatialLen (buffers : InputBuffers) : Nat :=
  buffers.singleSpatialEltLen

/-- The queryable per-slot global tensor length. -/
def getBatchEltGlobalLen (buffers : InputBuffers) : Nat :=
  buffers.singleGlobalEltLen

/-- Modelled from the spec: the `NNOutput` record (declared in the missing
`neuralnet/nninputs.h`): policy logits, value logits and auxiliary logits,
all raw pre-activation values. -/
structure NNOutput where
  policyLogits : List Int
  valueLogits : List Int
  miscValueLogits : List Int
deriving DecidableEq, Repr

/-- Run the model trunk on one batch element. -/
def runTrunk (layers : List Layer) (t : Tensor) : Tensor :=
  layers.foldl (fun acc l => applyLayer l acc) t

/-- Run the model trunk on a whole batch, layer by layer across the batch,
as a batched device kernel would. -/
def batchTrunk (layers : List Layer) (batch : List Tensor) : List Tensor :=
  layers.foldl (fun b l => b.map (applyLayer l)) batch

/-- Modelled from the spec: the output heads map the trunk result to raw
logits — no softmax, tanh, or other final activation is applied. -/
def rawHeadOutputs (loadedModel : LoadedModel) (t : Tensor) : NNOutput :=
  { policyLogits := t,
    valueLogits := [t.sum + loadedModel.valueHeadShift],
    miscValueLogits := [2 * t.sum] }

/-- The network input assembled from one buffer slot: the spatial tensor,
symmetry-transformed as selected by the buffer's shared selector, followed
by the global tensor. -/
def slotInput (computeHandle : ComputeHandle) (buffers : InputBuffers) (i : Nat) : Tensor :=
  applySymmetry 1 computeHandle.model.numSpatialChannels computeHandle.nnXLen
      computeHandle.nnYLen computeHandle.inputsUseNHWC buffers.symmetries
      (getBatchEltSpatialInplace buffers i)
    ++ getBatchEltGlobalInplace buffers i

/-- The full evaluation of a single slot: symmetry transform, trunk, raw
heads. -/
def evalOneSlot (computeHandle : ComputeHandle) (buffers : InputBuffers) (i : Nat) : NNOutput :=
  rawHeadOutputs computeHandle.model
    (runTrunk computeHandle.model.trunk (slotInput computeHandle buffers i))

/-- Modelled from the spec: `getOutput` (implementation not under `src/`) —
one synchronous batched forward pass over slots `[0, numBatchEltsFilled)`,
writing raw logits positionally into the output records. The C++ call also
mutates the handle's internal scratch state; the post-call handle is returned
as the second component. -/
def getOutputWithState (computeHandle : ComputeHandle) (buffers : InputBuffers)
    (numBatchEltsFilled : Nat) : List NNOutput × ComputeHandle :=
  let inputs := (List.range numBatchEltsFilled).map (slotInput computeHandle buffers)
  ((batchTrunk computeHandle.model.trunk inputs).map (rawHeadOutputs computeHandle.model),
   { computeHandle with scratch := computeHandle.scratch + numBatchEltsFilled })

/-- The output records written by `getOutput`. -/
def getOutput (computeHandle : ComputeHandle) (buffers : InputBuffers)
    (numBatchEltsFilled : Nat) : List NNOutput :=
  (getOutputWithState computeHandle buffers numBatchEltsFilled).1

/-- Modelled from the spec: convolution layer descriptor (from the missing
`neuralnet/desc.h`); only its shape fields matter to this layer. -/
structure ConvLayerDesc where
  convYSize : Nat
  convXSize : Nat
  inChannels : Nat
  outChannels : Nat
deriving DecidableEq, Repr

/-- Modelled from the spec: batch-norm layer descriptor (from the missing
`neuralnet/desc.h`). -/
structure BatchNormLayerDesc where
  numChannels : Nat
deriving DecidableEq, Repr

/-- Modelled from the spec: residual block descriptor (from the missing
`neuralnet/desc.h`). -/
structure ResidualBlockDesc where
  numChannels : Nat
deriving DecidableEq, Repr

/-- Modelled from the spec: global-pooling residual block descriptor (from
the missing `neuralnet/desc.h`). -/
structure GlobalPoolingResidualBlockDesc where
  numChannels : Nat
deriving DecidableEq, Repr

/-- Modelled from the spec: a backend's conformance-test capability. The
concrete tensor kernels are external collaborators, so each layer kind the
backend implements for isolated testing is an optional kernel function
(`none` = "not implemented for direct testing"); the symmetry transform is
specified by this layer itself, so only its support flag varies. -/
structure TestBackend where
  convImpl : Option (ConvLayerDesc → Nat → Nat → Nat → Bool → Bool → List Int → List Int)
  batchNormImpl :
    Option (BatchNormLayerDesc → Nat → Nat → Nat → Bool → Bool → List Int → List Int → List Int)
  residualImpl :
    Option (ResidualBlockDesc → Nat → Nat → Nat → Bool → Bool → List Int → List Int → List Int)
  gpoolImpl :
    Option (GlobalPoolingResidualBlockDesc → Nat → Nat → Nat → Bool → Bool →
      List Int → List Int → List Int)
  symmetrySupported : Bool

/-- Modelled from the spec: `testEvaluateConv` — returns `false` leaving the
output buffer untouched when the backend does not implement isolated conv
testing, else `true` with the output buffer rewritten to the conv kernel's
result on the raw input. The C++ in-out `outputBuffer` is modelled by taking
its prior value and returning its final value. -/
def testEvaluateConv (backend : TestBackend) (desc : ConvLayerDesc)
    (batchSize nnXLen nnYLen : Nat) (useFP16 useNHWC : Bool)
    (inputBuffer outputBuffer : List Int) : Bool × List Int :=
  match backend.convImpl with
  | none => (false, outputBuffer)
  | some f => (true, f desc batchSize nnXLen nnYLen useFP16 useNHWC inputBuffer)

/-- Modelled from the spec: `testEvaluateBatchNorm`, as `testEvaluateConv`
but with the NHW mask buffer. -/
def testEvaluateBatchNorm (backend : TestBackend) (desc : BatchNormLayerDesc)
    (batchSize nnXLen nnYLen : Nat) (useFP16 useNHWC : Bool)
    (inputBuffer maskBuffer outputBuffer : List Int) : Bool × List Int :=
  match backend.batchNormImpl with
  | none => (false, outputBuffer)
  | some f => (true, f desc batchSize nnXLen nnYLen useFP16 useNHWC inputBuffer maskBuffer)

/-- Modelled from the spec: `testEvaluateResidualBlock`. -/
def testEvaluateResidualBlock (backend : TestBackend) (desc : ResidualBlockDesc)
    (batchSize nnXLen nnYLen : Nat) (useFP16 useNHWC : Bool)
    (inputBuffer maskBuffer outputBuffer : List Int) : Bool × List Int :=
  match backend.residualImpl with
  | none => (false, outputBuffer)
  | some f => (true, f desc batchSize nnXLen nnYLen useFP16 useNHWC inputBuffer maskBuffer)

/-- Modelled from the spec: `testEvaluateGlobalPoolingResidualBlock`. -/
def testEvaluateGlobalPoolingResidualBlock (backend : TestBackend)
    (desc : GlobalPoolingResidualBlockDesc)
    (batchSize nnXLen nnYLen : Nat) (useFP16 useNHWC : Bool)
    (inputBuffer maskBuffer outputBuffer : List Int) : Bool × List Int :=
  match backend.gpoolImpl with
  | none => (false, outputBuffer)
  | some f => (true, f desc batchSize nnXLen nnYLen useFP16 useNHWC inputBuffer maskBuffer)

/-- Modelled from the spec: `testEvaluateSymmetry` — when supported, applies
exactly the selected symmetry transform to the input buffer, resizing the
output buffer to the result; otherwise returns `false` leaving the output
buffer untouched. -/
def testEvaluateSymmetry (backend : TestBackend) (batchSize numChannels nnXLen nnYLen : Nat)
    (useFP16 useNHWC : Bool) (symmetries : Bool × Bool × Bool)
    (inputBuffer outputBuffer : List Int) : Bool × List Int :=
  if backend.symmetrySupported then
    (true, applySymmetry batchSize numChannels nnXLen nnYLen useNHWC symmetries inputBuffer)
  else (false, outputBuffer)

/-- Modelled from the spec: the host file system seen by the model loader —
`readFile` yields the file's contents, or `none` when the file is
unreadable. -/
structure FileSystem where
  readFile : String → Option String

/-- Modelled from the spec: `loadModelFile` (implementation not under
`src/`). The external model-file parser collaborator is passed explicitly
(`parse` yields `none` on malformed contents); the result is `none` — never
an exception or abort — exactly when the file is unreadable or malformed,
and a usable `LoadedModel` otherwise. -/
def loadModelFile (fs : FileSystem) (parse : String → Option LoadedModel)
    (file : String) : Option LoadedModel :=
  match fs.readFile file with
  | none => none
  | some contents => parse contents

/-- Modelled from the spec: the observable resource state of the layer —
whether the environment bracket is open, and which contexts, handles (each
recording its originating context) and buffer sets are currently alive. -/
structure LifeState where
  envReady : Bool
  liveContexts : List Nat
  liveHandles : List (Nat × Nat)
  liveBuffers : List Nat
  nextId : Nat
deriving DecidableEq, Repr

/-- The lifecycle API calls, abstracted to the resource identities they
touch. -/
inductive LifeAction where
  | globalInit
  | globalCleanup
  | newContext
  | freeContext (ctxId : Nat)
  | newHandle (ctxId : Nat)
  | freeHandle (handleId : Nat)
  | newBuffers
  | freeBuffers (bufId : Nat)
deriving DecidableEq, Repr

/-- Modelled from the spec: the well-behaved call sequences of the lifecycle
API. Each constructor carries exactly the documented preconditions of the
corresponding call: the environment bracket is one-shot and surrounds all
other use, handles are created only against live contexts, a context is
freed only when no handle created from it is still alive, and cleanup
happens only after every resource has been released. -/
inductive LifeStep : LifeState → LifeAction → LifeState → Prop where
  | globalInit (s : LifeState) :
      s.envReady = false → s.liveContexts = [] → s.liveHandles = [] → s.liveBuffers = [] →
      LifeStep s .globalInit { s with envReady := true }
  | newContext (s : LifeState) :
      s.envReady = true →
      LifeStep s .newContext
        { s with liveContexts := s.nextId :: s.liveContexts, nextId := s.nextId + 1 }
  | newHandle (s : LifeState) (c : Nat) :
      s.envReady = true → c ∈ s.liveContexts →
      LifeStep s (.newHandle c)
        { s with liveHandles := (s.nextId, c) :: s.liveHandles, nextId := s.nextId + 1 }
  | freeHandle (s : LifeState) (hId c : Nat) :
      (hId, c) ∈ s.liveHandles →
      LifeStep s (.freeHandle hId)
        { s with liveHandles := s.liveHandles.filter (fun p => p.1 != hId) }
  | newBuffers (s : LifeState) :
      s.envReady = true →
      LifeStep s .newBuffers
        { s with liveBuffers := s.nextId :: s.liveBuffers, nextId := s.nextId + 1 }
  | freeBuffers (s : LifeState) (b : Nat) :
      b ∈ s.liveBuffers →
      LifeStep s (.freeBuffers b)
        { s with liveBuffers := s.liveBuffers.filter (fun x => x != b) }
  | freeContext (s : LifeState) (c : Nat) :
      c ∈ s.liveContexts → (∀ p ∈ s.liveHandles, p.2 ≠ c) →
      LifeStep s (.freeContext c)
        { s with liveContexts := s.liveContexts.filter (fun x => x != c) }
  | globalCleanup (s : LifeState) :
      s.envReady = true → s.liveContexts = [] → s.liveHandles = [] → s.liveBuffers = [] →
      LifeStep s .globalCleanup { s with envReady := false }

/-- The state at process start: nothing initialized, nothing alive. -/
def initLifeState : LifeState :=
  { envReady := false, liveContexts := [], liveHandles := [], liveBuffers := [], nextId := 0 }

/-- A state is reachable when some well-behaved call sequence leads to it
from process start. -/
def ReachableLife (s : LifeState) : Prop :=
  Relation.ReflTransGen (fun a b => ∃ act, LifeStep a act b) initLifeState s

/-- Referential integrity of the lifecycle: every live handle's originating
context is itself live. -/
def handlesWellFormed (s : LifeState) : Prop :=
  ∀ p ∈ s.liveHandles, p.2 ∈ s.liveContexts

/-- A concrete parsed model used to instantiate the theorems below. -/
def model0 : LoadedModel :=
  { name := "b18test", version := 8, numSpatialChannels := 2, numGlobalFeatures := 1,
    defaultRules := ⟨0, 15⟩, otherRules := [⟨1, 14⟩],
    trunk := [Layer.shift 1, Layer.relu], valueHeadShift := 4 }

/-- A concrete file system exposing one readable model file. -/
def fs0 : FileSystem :=
  ⟨fun p => if p = "good.bin" then some "ok" else none⟩

/-- A concrete parser accepting exactly the contents of that file. -/
def parse0 : String → Option LoadedModel :=
  fun c => if c = "ok" then some model0 else none

/-- A concrete compute context over `model0` with a 2×2 spatial extent. -/
def ctx0 : ComputeContext :=
  createComputeContext [-1] 2 2 "" false enabled_t.auto enabled_t.auto model0

/-- A concrete compute handle derived from `ctx0`. -/
def handle0 : ComputeHandle :=
  createComputeHandle ctx0 model0 8 false false (-1)

/-- A concrete input buffer set for `model0` at the 2×2 extent. -/
def buf0 : InputBuffers :=
  createInputBuffers model0 8 2 2

/-- A concrete conformance-test backend implementing every layer kind, its
conv kernel scaling by the output channel count and its masked kernels
multiplying pointwise by the broadcast mask stand-ins. -/
def backend0 : TestBackend :=
  { convImpl := some (fun desc _ _ _ _ _ input => input.map (fun v => v * desc.outChannels)),
    batchNormImpl := some (fun _ _ _ _ _ _ input _ => input),
    residualImpl := some (fun _ _ _ _ _ _ input _ => input.map (fun v => v + v)),
    gpoolImpl := some (fun _ _ _ _ _ _ input _ => input),
    symmetrySupported := true }

theorem rulesDist_self (a : Rules) : rulesDist a a = 0 := by
  simp [rulesDist]

theorem rulesDist_eq_zero_iff (a b : Rules) : rulesDist a b = 0 ↔ a = b := by
  constructor
  · intro h
    unfold rulesDist at h
    by_cases hid : a.rulesetId = b.rulesetId
    · simp [hid] at h
      have hk : a.komi = b.komi := by omega
      cases a; cases b
      simp_all
    · simp [hid] at h
  · intro h; subst h; exact rulesDist_self a

theorem nearestRules_mem (desired best : Rules) (rs : List Rules) :
    nearestRules desired best rs ∈ best :: rs := by
  induction rs generalizing best with
  | nil => simp [nearestRules]
  | cons r rs ih =>
      unfold nearestRules
      by_cases h : rulesDist desired r < rulesDist desired best
      · simp only [if_pos h]
        have := ih r
        simp at this
        rcases this with h1 | h1 <;> simp [h1]
      · simp only [if_neg h]
        have := ih best
        simp at this
        rcases this with h1 | h1 <;> simp [h1]

theorem nearestRules_minimal (desired best : Rules) (rs : List Rules) :
    ∀ x ∈ best :: rs, rulesDist desired (nearestRules desired best rs) ≤ rulesDist desired x := by
  induction rs generalizing best with
  | nil => intro x hx; simp at hx; subst hx; simp [nearestRules]
  | cons r rs ih =>
      intro x hx
      unfold nearestRules
      simp at hx
      by_cases h : rulesDist desired r < rulesDist desired best
      · simp only [if_pos h]
        rcases hx with hx | hx | hx
        · rw [hx]
          exact le_of_lt (lt_of_le_of_lt (ih r r (by simp)) h)
        · rw [hx]; exact ih r r (by simp)
        · exact ih r x (by simp [hx])
      · simp only [if_neg h]
        rcases hx with hx | hx | hx
        · rw [hx]; exact ih best best (by simp)
        · rw [hx]
          exact le_trans (ih best best (by simp)) (le_of_not_lt h)
        · exact ih best x (by simp [hx])

theorem nearestRules_fixpoint (s best : Rules) (rs : List Rules) (hs : s ∈ best :: rs) :
    nearestRules s best rs = s := by
  have hmem := nearestRules_mem s best rs
  have hmin := nearestRules_minimal s best rs s hs
  rw [rulesDist_self] at hmin
  have hzero : rulesDist s (nearestRules s best rs) = 0 := Nat.le_zero.mp hmin
  have := (rulesDist_eq_zero_iff s (nearestRules s best rs)).mp hzero
  exact this.symm

/-- C2: rule resolution is idempotent: feeding the resolved result of
`getSupportedRules` back into `getSupportedRules` yields the same resolved
rule set and reports an exact match. -/
theorem getSupportedRules_idempotent (loadedModel : LoadedModel) (R : Rules) :
    (getSupportedRules loadedModel (getSupportedRules loadedModel R).1).2 = true ∧
    (getSupportedRules loadedModel (getSupportedRules loadedModel R).1).1 =
      (getSupportedRules loadedModel R).1 := by
  unfold getSupportedRules
  simp only
  have hmem := nearestRules_mem R loadedModel.defaultRules loadedModel.otherRules
  have hfix := nearestRules_fixpoint
    (nearestRules R loadedModel.defaultRules loadedModel.otherRules)
    loadedModel.defaultRules loadedModel.otherRules hmem
  simp [hfix]

theorem encodeIdx_decodeIdx (u : Bool) (C H W i : Nat) :
    encodeIdx u C H W (decodeIdx u C H W i).1 (decodeIdx u C H W i).2.1
      (decodeIdx u C H W i).2.2.1 (decodeIdx u C H W i).2.2.2 = i := by
  cases u with
  | false =>
      simp only [decodeIdx, encodeIdx, Bool.false_eq_true, if_false]
      have h3 : i % (H * W) = i % W + W * (i / W % H) := by
        rw [show H * W = W * H from Nat.mul_comm H W]; exact Nat.mod_mul
      have h2 : i % (C * H * W) = i % (H * W) + (H * W) * (i / (H * W) % C) := by
        rw [show C * H * W = (H * W) * C by ring]; exact Nat.mod_mul
      have h4 : i % (C * H * W) =
          (H * W) * (i / (H * W) % C) + W * (i / W % H) + i % W := by
        rw [h2, h3]; ring
      calc ((i / (C * H * W) * C + i / (H * W) % C) * H + i / W % H) * W + i % W
          = (C * H * W) * (i / (C * H * W)) +
              ((H * W) * (i / (H * W) % C) + W * (i / W % H) + i % W) := by ring
        _ = (C * H * W) * (i / (C * H * W)) + i % (C * H * W) := by rw [h4]
        _ = i := Nat.div_add_mod i (C * H * W)
  | true =>
      simp only [decodeIdx, encodeIdx, if_true]
      have h3 : i % (W * C) = i % C + C * (i / C % W) := by
        rw [show W * C = C * W from Nat.mul_comm W C]; exact Nat.mod_mul
      have h2 : i % (H * W * C) = i % (W * C) + (W * C) * (i / (W * C) % H) := by
        rw [show H * W * C = (W * C) * H by ring]; exact Nat.mod_mul
      have h4 : i % (H * W * C) =
          (W * C) * (i / (W * C) % H) + C * (i / C % W) + i % C := by
        rw [h2, h3]; ring
      calc ((i / (H * W * C) * H + i / (W * C) % H) * W + i / C % W) * C + i % C
          = (H * W * C) * (i / (H * W * C)) +
              ((W * C) * (i / (W * C) % H) + C * (i / C % W) + i % C) := by ring
        _ = (H * W * C) * (i / (H * W * C)) + i % (H * W * C) := by rw [h4]
        _ = i := Nat.div_add_mod i (H * W * C)

theorem applySymmetry_id (batchSize numChannels nnXLen nnYLen : Nat) (useNHWC : Bool)
    (input : List Int)
    (hlen : input.length = batchSize * numChannels * nnYLen * nnXLen) :
    applySymmetry batchSize numChannels nnXLen nnYLen useNHWC (false, false, false) input
      = input := by
  have hred : applySymmetry batchSize numChannels nnXLen nnYLen useNHWC
      (false, false, false) input
      = (List.range (batchSize * numChannels * nnYLen * nnXLen)).map
          (fun i => input.getD (encodeIdx useNHWC numChannels nnYLen nnXLen
            (decodeIdx useNHWC numChannels nnYLen nnXLen i).1
            (decodeIdx useNHWC numChannels nnYLen nnXLen i).2.1
            (decodeIdx useNHWC numChannels nnYLen nnXLen i).2.2.1
            (decodeIdx useNHWC numChannels nnYLen nnXLen i).2.2.2) 0) := by
    simp [applySymmetry]
  rw [hred]
  apply List.ext_getElem
  · simp [hlen]
  · intro i h1 h2
    simp only [List.getElem_map, List.getElem_range, encodeIdx_decodeIdx]
    exact List.getD_eq_getElem input 0 h2

/-- C5: for every batch size, channel count, spatial extent, precision mode
and layout mode, `testEvaluateSymmetry` with the identity symmetry (all three
flags false) on a backend that supports symmetry testing produces an output
buffer equal to the input buffer. -/
theorem testEvaluateSymmetry_identity (backend : TestBackend)
    (batchSize numChannels nnXLen nnYLen : Nat) (useFP16 useNHWC : Bool)
    (inputBuffer outputBuffer : List Int)
    (hsup : backend.symmetrySupported = true)
    (hlen : inputBuffer.length = batchSize * numChannels * nnYLen * nnXLen) :
    testEvaluateSymmetry backend batchSize numChannels nnXLen nnYLen useFP16 useNHWC
      (false, false, false) inputBuffer outputBuffer = (true, inputBuffer) := by
  unfold testEvaluateSymmetry
  rw [hsup]
  simp only [if_true]
  rw [applySymmetry_id batchSize numChannels nnXLen nnYLen useNHWC inputBuffer hlen]

theorem testEvaluateSymmetry_identity_witness :
    testEvaluateSymmetry backend0 1 1 2 2 false false (false, false, false)
      [1, 2, 3, 4] [] = (true, [1, 2, 3, 4]) :=
  testEvaluateSymmetry_identity backend0 1 1 2 2 false false [1, 2, 3, 4] []
    (by decide) (by decide)

/-- C3: every `testEvaluate` entry point either returns `false` with the
output buffer left exactly as it was (the layer kind is not implemented for
isolated testing), or returns `true` with the output buffer holding exactly
that layer's operation applied to the raw input; `true` never accompanies
anything other than the computed result. -/
theorem testEvaluate_protocol (backend : TestBackend) :
    (∀ desc batchSize nnXLen nnYLen useFP16 useNHWC inputBuffer outputBuffer,
      (backend.convImpl = none ∧
        testEvaluateConv backend desc batchSize nnXLen nnYLen useFP16 useNHWC
          inputBuffer outputBuffer = (false, outputBuffer)) ∨
      (∃ f, backend.convImpl = some f ∧
        testEvaluateConv backend desc batchSize nnXLen nnYLen useFP16 useNHWC
          inputBuffer outputBuffer =
          (true, f desc batchSize nnXLen nnYLen useFP16 useNHWC inputBuffer))) ∧
    (∀ desc batchSize nnXLen nnYLen useFP16 useNHWC inputBuffer maskBuffer outputBuffer,
      (backend.batchNormImpl = none ∧
        testEvaluateBatchNorm backend desc batchSize nnXLen nnYLen useFP16 useNHWC
          inputBuffer maskBuffer outputBuffer = (false, outputBuffer)) ∨
      (∃ f, backend.batchNormImpl = some f ∧
        testEvaluateBatchNorm backend desc batchSize nnXLen nnYLen useFP16 useNHWC
          inputBuffer maskBuffer outputBuffer =
          (true, f desc batchSize nnXLen nnYLen useFP16 useNHWC inputBuffer maskBuffer))) ∧
    (∀ desc batchSize nnXLen nnYLen useFP16 useNHWC inputBuffer maskBuffer outputBuffer,
      (backend.residualImpl = none ∧
        testEvaluateResidualBlock backend desc batchSize nnXLen nnYLen useFP16 useNHWC
          inputBuffer maskBuffer outputBuffer = (false, outputBuffer)) ∨
      (∃ f, backend.residualImpl = some f ∧
        testEvaluateResidualBlock backend desc batchSize nnXLen nnYLen useFP16 useNHWC
          inputBuffer maskBuffer outputBuffer =
          (true, f desc batchSize nnXLen nnYLen useFP16 useNHWC inputBuffer maskBuffer))) ∧
    (∀ desc batchSize nnXLen nnYLen useFP16 useNHWC inputBuffer maskBuffer outputBuffer,
      (backend.gpoolImpl = none ∧
        testEvaluateGlobalPoolingResidualBlock backend desc batchSize nnXLen nnYLen
          useFP16 useNHWC inputBuffer maskBuffer outputBuffer = (false, outputBuffer)) ∨
      (∃ f, backend.gpoolImpl = some f ∧
        testEvaluateGlobalPoolingResidualBlock backend desc batchSize nnXLen nnYLen
          useFP16 useNHWC inputBuffer maskBuffer outputBuffer =
          (true, f desc batchSize nnXLen nnYLen useFP16 useNHWC inputBuffer maskBuffer))) ∧
    (∀ batchSize numChannels nnXLen nnYLen useFP16 useNHWC symmetries inputBuffer
        outputBuffer,
      (backend.symmetrySupported = false ∧
        testEvaluateSymmetry backend batchSize numChannels nnXLen nnYLen useFP16 useNHWC
          symmetries inputBuffer outputBuffer = (false, outputBuffer)) ∨
      (backend.symmetrySupported = true ∧
        testEvaluateSymmetry backend batchSize numChannels nnXLen nnYLen useFP16 useNHWC
          symmetries inputBuffer outputBuffer =
          (true, applySymmetry batchSize numChannels nnXLen nnYLen useNHWC symmetries
            inputBuffer))) := by
  refine ⟨?_, ?_, ?_, ?_, ?_⟩
  · intro desc batchSize nnXLen nnYLen useFP16 useNHWC inputBuffer outputBuffer
    cases h : backend.convImpl with
    | none => exact Or.inl ⟨rfl, by simp [testEvaluateConv, h]⟩
    | some f => exact Or.inr ⟨f, rfl, by simp [testEvaluateConv, h]⟩
  · intro desc batchSize nnXLen nnYLen useFP16 useNHWC inputBuffer maskBuffer outputBuffer
    cases h : backend.batchNormImpl with
    | none => exact Or.inl ⟨rfl, by simp [testEvaluateBatchNorm, h]⟩
    | some f => exact Or.inr ⟨f, rfl, by simp [testEvaluateBatchNorm, h]⟩
  · intro desc batchSize nnXLen nnYLen useFP16 useNHWC inputBuffer maskBuffer outputBuffer
    cases h : backend.residualImpl with
    | none => exact Or.inl ⟨rfl, by simp [testEvaluateResidualBlock, h]⟩
    | some f => exact Or.inr ⟨f, rfl, by simp [testEvaluateResidualBlock, h]⟩
  · intro desc batchSize nnXLen nnYLen useFP16 useNHWC inputBuffer maskBuffer outputBuffer
    cases h : backend.gpoolImpl with
    | none => exact Or.inl ⟨rfl, by simp [testEvaluateGlobalPoolingResidualBlock, h]⟩
    | some f => exact Or.inr ⟨f, rfl, by simp [testEvaluateGlobalPoolingResidualBlock, h]⟩
  · intro batchSize numChannels nnXLen nnYLen useFP16 useNHWC symmetries inputBuffer
      outputBuffer
    cases h : backend.symmetrySupported with
    | false => exact Or.inl ⟨rfl, by simp [testEvaluateSymmetry, h]⟩
    | true => exact Or.inr ⟨rfl, by simp [testEvaluateSymmetry, h]⟩

theorem batchTrunk_map (layers : List Layer) (batch : List Tensor) :
    batchTrunk layers batch = batch.map (runTrunk layers) := by
  induction layers generalizing batch with
  | nil =>
      show batch = batch.map (runTrunk [])
      rw [show runTrunk ([] : List Layer) = id from rfl, List.map_id]
  | cons l ls ih =>
      show batchTrunk ls (batch.map (applyLayer l)) = batch.map (runTrunk (l :: ls))
      rw [ih, List.map_map]
      rfl

theorem getOutput_length (computeHandle : ComputeHandle) (buffers : InputBuffers)
    (numBatchEltsFilled : Nat) :
    (getOutput computeHandle buffers numBatchEltsFilled).length = numBatchEltsFilled := by
  simp [getOutput, getOutputWithState, batchTrunk_map]

theorem getOutput_get (computeHandle : ComputeHandle) (buffers : InputBuffers)
    (numBatchEltsFilled i : Nat) (hi : i < numBatchEltsFilled) :
    (getOutput computeHandle buffers numBatchEltsFilled)[i]? =
      some (evalOneSlot computeHandle buffers i) := by
  simp [getOutput, getOutputWithState, batchTrunk_map, List.getElem?_map,
    List.getElem?_range hi, evalOneSlot]

/-- C1: for every handle/buffer pair and every `numFilled` in
`[1, maxBatchSize]` with slots `[0, numFilled)` filled, `getOutput` writes
exactly `numFilled` output records; outputs are positional — `output[i]` is
the evaluation of slot `i` alone, so any two buffer sets sharing the
symmetry selector and agreeing on slot `i` yield the same `output[i]`. -/
theorem getOutput_positional (computeHandle : ComputeHandle) (b1 b2 : InputBuffers)
    (numFilled i : Nat)
    (hn : 1 ≤ numFilled ∧ numFilled ≤ computeHandle.maxBatchSize)
    (hi : i < numFilled)
    (hsym : b1.symmetries = b2.symmetries)
    (hspatial : getBatchEltSpatialInplace b1 i = getBatchEltSpatialInplace b2 i)
    (hglobal : getBatchEltGlobalInplace b1 i = getBatchEltGlobalInplace b2 i) :
    (getOutput computeHandle b1 numFilled).length = numFilled ∧
    (getOutput computeHandle b1 numFilled)[i]? =
      some (evalOneSlot computeHandle b1 i) ∧
    (getOutput computeHandle b1 numFilled)[i]? =
      (getOutput computeHandle b2 numFilled)[i]? := by
  refine ⟨getOutput_length computeHandle b1 numFilled, getOutput_get computeHandle b1 numFilled i hi, ?_⟩
  rw [getOutput_get computeHandle b1 numFilled i hi,
    getOutput_get computeHandle b2 numFilled i hi]
  unfold evalOneSlot slotInput
  rw [hsym, hspatial, hglobal]

theorem getOutput_positional_witness :
    (getOutput handle0 buf0 2).length = 2 ∧
    (getOutput handle0 buf0 2)[0]? = some (evalOneSlot handle0 buf0 0) ∧
    (getOutput handle0 buf0 2)[0]? = (getOutput handle0 buf0 2)[0]? :=
  getOutput_positional handle0 buf0 buf0 2 0 (by decide) (by decide) rfl rfl rfl

/-- C4: the batch evaluator is deterministic — re-running `getOutput` on the
post-call handle state with the same buffer contents and batch count yields
exactly the same output records as the first call. -/
theorem getOutput_deterministic (computeHandle : ComputeHandle) (buffers : InputBuffers)
    (numBatchEltsFilled : Nat) :
    (getOutputWithState (getOutputWithState computeHandle buffers numBatchEltsFilled).2
        buffers numBatchEltsFilled).1 =
      (getOutputWithState computeHandle buffers numBatchEltsFilled).1 := rfl

/-- C8: every value `getOutput` writes is a raw pre-activation logit: each
output record is exactly `rawHeadOutputs` of a trunk result (no final
activation applied), and concretely an evaluation exists whose policy logits
do not sum to 1 (so no softmax was applied) and whose value logit exceeds 1
(so no tanh was applied). -/
theorem getOutput_raw_logits :
    (∀ (computeHandle : ComputeHandle) (buffers : InputBuffers) (n : Nat),
      ∀ out ∈ getOutput computeHandle buffers n,
        ∃ t, out = rawHeadOutputs computeHandle.model t) ∧
    (∃ out ∈ getOutput handle0 buf0 1,
      out.policyLogits.sum ≠ 1 ∧ (1 : Int) < out.valueLogits.getD 0 0) := by
  constructor
  · intro computeHandle buffers n out hout
    simp only [getOutput, getOutputWithState, List.mem_map] at hout
    obtain ⟨t, _, ht⟩ := hout
    exact ⟨t, ht.symm⟩
  · decide

theorem getOutput_raw_logits_witness :
    ∃ t, (getOutput handle0 buf0 1).getD 0 ⟨[], [], []⟩ =
      rawHeadOutputs handle0.model t :=
  getOutput_raw_logits.1 handle0 buf0 1
    ((getOutput handle0 buf0 1).getD 0 ⟨[], [], []⟩) (by decide)

/-- C6: for every buffer set created from a model and spatial extent, the
queryable spatial slot length equals `channels × nnYLen × nnXLen` for the
model's declared channel count, the queryable global slot length is the
model's declared global feature constant, and every slot in range is
allocated with exactly those lengths. -/
theorem getBatchEltSpatialLen_spec (loadedModel : LoadedModel)
    (maxBatchSize nnXLen nnYLen : Nat) :
    getBatchEltSpatialLen (createInputBuffers loadedModel maxBatchSize nnXLen nnYLen) =
      loadedModel.numSpatialChannels * nnYLen * nnXLen ∧
    getBatchEltGlobalLen (createInputBuffers loadedModel maxBatchSize nnXLen nnYLen) =
      loadedModel.numGlobalFeatures ∧
    ∀ i < maxBatchSize,
      (getBatchEltSpatialInplace (createInputBuffers loadedModel maxBatchSize nnXLen nnYLen)
          i).length =
        getBatchEltSpatialLen (createInputBuffers loadedModel maxBatchSize nnXLen nnYLen) ∧
      (getBatchEltGlobalInplace (createInputBuffers loadedModel maxBatchSize nnXLen nnYLen)
          i).length =
        getBatchEltGlobalLen (createInputBuffers loadedModel maxBatchSize nnXLen nnYLen) := by
  refine ⟨rfl, rfl, ?_⟩
  intro i hi
  constructor <;>
    simp [createInputBuffers, getBatchEltSpatialInplace, getBatchEltGlobalInplace,
      getBatchEltSpatialLen, getBatchEltGlobalLen, List.getD, List.getElem?_replicate, hi]

theorem getBatchEltSpatialLen_spec_witness :
    (getBatchEltSpatialInplace (createInputBuffers model0 8 2 2) 0).length =
      getBatchEltSpatialLen (createInputBuffers model0 8 2 2) ∧
    (getBatchEltGlobalInplace (createInputBuffers model0 8 2 2) 0).length =
      getBatchEltGlobalLen (createInputBuffers model0 8 2 2) :=
  (getBatchEltSpatialLen_spec model0 8 2 2).2.2 0 (by decide)

/-- C10: `createInputBuffers` takes no layout-mode parameter, so the buffer
set created against a context configured with one layout mode is identical
to the one created against a context with any other layout mode, and both
queryable slot lengths are the layout-independent values `C · H · W` and the
model's global feature constant. -/
theorem inputBuffers_layout_independent (loadedModel : LoadedModel)
    (gpuIdxs : List Int) (maxBatchSize nnXLen nnYLen : Nat) (tunerFile : String)
    (reTune : Bool) (fp16Mode layout1 layout2 : enabled_t) :
    createInputBuffers
        (createComputeContext gpuIdxs nnXLen nnYLen tunerFile reTune fp16Mode layout1
          loadedModel).model
        maxBatchSize
        (createComputeContext gpuIdxs nnXLen nnYLen tunerFile reTune fp16Mode layout1
          loadedModel).nnXLen
        (createComputeContext gpuIdxs nnXLen nnYLen tunerFile reTune fp16Mode layout1
          loadedModel).nnYLen =
      createInputBuffers
        (createComputeContext gpuIdxs nnXLen nnYLen tunerFile reTune fp16Mode layout2
          loadedModel).model
        maxBatchSize
        (createComputeContext gpuIdxs nnXLen nnYLen tunerFile reTune fp16Mode layout2
          loadedModel).nnXLen
        (createComputeContext gpuIdxs nnXLen nnYLen tunerFile reTune fp16Mode layout2
          loadedModel).nnYLen ∧
    getBatchEltSpatialLen (createInputBuffers loadedModel maxBatchSize nnXLen nnYLen) =
      loadedModel.numSpatialChannels * nnYLen * nnXLen ∧
    getBatchEltGlobalLen (createInputBuffers loadedModel maxBatchSize nnXLen nnYLen) =
      loadedModel.numGlobalFeatures :=
  ⟨rfl, rfl, rfl⟩

/-- C7: `loadModelFile` fails by returning an empty result — never by
raising — exactly when the file is unreadable or its contents are malformed;
for a readable, well-formed model file it returns the parsed usable
descriptor. -/
theorem loadModelFile_spec (fs : FileSystem) (parse : String → Option LoadedModel)
    (file : String) :
    (loadModelFile fs parse file = none ↔
      fs.readFile file = none ∨ ∃ c, fs.readFile file = some c ∧ parse c = none) ∧
    ∀ c m, fs.readFile file = some c → parse c = some m →
      loadModelFile fs parse file = some m := by
  constructor
  · cases h : fs.readFile file with
    | none => simp [loadModelFile, h]
    | some c =>
        cases hp : parse c with
        | none => simp [loadModelFile, h, hp]
        | some m => simp [loadModelFile, h, hp]
  · intro c m hc hm
    simp [loadModelFile, hc, hm]

theorem loadModelFile_spec_witness :
    loadModelFile fs0 parse0 "good.bin" = some model0 :=
  (loadModelFile_spec fs0 parse0 "good.bin").2 "ok" model0 (by decide) (by decide)

theorem LifeStep_preserves_wf {s t : LifeState} {a : LifeAction}
    (hstep : LifeStep s a t) (hwf : handlesWellFormed s) : handlesWellFormed t := by
  cases hstep with
  | globalInit h1 h2 h3 h4 => exact hwf
  | newContext h1 =>
      intro p hp
      exact List.mem_cons_of_mem _ (hwf p hp)
  | newHandle c h1 hc =>
      intro p hp
      rcases List.mem_cons.mp hp with hp | hp
      · rw [hp]; exact hc
      · exact hwf p hp
  | freeHandle hId c hmem =>
      intro p hp
      exact hwf p (List.mem_of_mem_filter hp)
  | newBuffers h1 => exact hwf
  | freeBuffers b hmem => exact hwf
  | freeContext c hc hno =>
      intro p hp
      refine List.mem_filter.mpr ⟨hwf p hp, ?_⟩
      simpa using hno p hp
  | globalCleanup h1 h2 h3 h4 => exact hwf

theorem reachable_wf {s : LifeState} (hs : ReachableLife s) : handlesWellFormed s := by
  unfold ReachableLife at hs
  induction hs with
  | refl => intro p hp; simp [initLifeState] at hp
  | tail hab hbc ih =>
      obtain ⟨a, hstep⟩ := hbc
      exact LifeStep_preserves_wf hstep ih

/-- C9: in every well-behaved call sequence, referential integrity holds in
every reachable state (each live handle's context is live), `freeContext`
only ever fires when no live handle was created from that context, and
`globalCleanup` only fires after every buffer, handle and context has been
released. -/
theorem lifecycle_teardown_safe (s : LifeState) (hs : ReachableLife s) :
    handlesWellFormed s ∧
    (∀ c t, LifeStep s (LifeAction.freeContext c) t → ∀ p ∈ s.liveHandles, p.2 ≠ c) ∧
    (∀ t, LifeStep s LifeAction.globalCleanup t →
      s.liveHandles = [] ∧ s.liveBuffers = [] ∧ s.liveContexts = []) := by
  refine ⟨reachable_wf hs, ?_, ?_⟩
  · intro c t hstep
    cases hstep with
    | freeContext _ hc hno => exact hno
  · intro t hstep
    cases hstep with
    | globalCleanup h1 h2 h3 h4 => exact ⟨h3, h4, h2⟩

theorem lifecycle_teardown_safe_witness :
    handlesWellFormed initLifeState ∧
    (∀ c t, LifeStep initLifeState (LifeAction.freeContext c) t →
      ∀ p ∈ initLifeState.liveHandles, p.2 ≠ c) ∧
    (∀ t, LifeStep initLifeState LifeAction.globalCleanup t →
      initLifeState.liveHandles = [] ∧ initLifeState.liveBuffers = [] ∧
        initLifeState.liveContexts = []) :=
  lifecycle_teardown_safe initLifeState Relation.ReflTransGen.refl

end NeuralNet
